import Mathlib

set_option maxRecDepth 8000

/-!
Shallow embedding of the evm_terminal trading engine core
(src/rust_module) and proofs about the specification claims.

Machine integers are modelled by `Nat` with explicit bounds:
`u256Size = 2^256`, `u512Size = 2^512`, `u128Size = 2^128`.
The Rust `uint` crate panics on arithmetic overflow for its checked
operators (`U512 * U512`, `U512 + U512`, `U256 * U256`); a panicking
operation is modelled by `Option.none`.  `f64` values that only flow
through exact arithmetic in the claims under study are modelled by `ℚ`
(bit-for-bit float rounding is not modelled; the modelled claims are
about ordering, clamping and exact small-magnitude arithmetic).
Ethereum addresses are 20-byte values, modelled by `Nat` (their
byte-lexicographic order coincides with numeric order).
-/

/-! ## Machine-integer helpers -/

def u128Size : Nat := 2 ^ 128

def u256Size : Nat := 2 ^ 256

def u512Size : Nat := 2 ^ 512

/-- `U512 * U512` from the Rust `uint` crate: panics (here `none`) on
overflow past 512 bits. -/
def u512Mul (a b : Nat) : Option Nat :=
  if a * b < u512Size then some (a * b) else none

/-- `U512 + U512` from the Rust `uint` crate: panics (here `none`) on
overflow past 512 bits. -/
def u512Add (a b : Nat) : Option Nat :=
  if a + b < u512Size then some (a + b) else none

/-- `u128::saturating_add`. -/
def u128SatAdd (a b : Nat) : Nat :=
  min (a + b) (u128Size - 1)

/-! ## execution.rs: `calculate_expected_out_v2_pure`

The function reads `selected_pool_address` and the `v2_reserves` map
from `CORE_STATE`; the two fields are embedded as an explicit state
record.  The reserve map is an association list with first-match
lookup. -/

structure V2QuoteState where
  selected_pool_address : Option Nat
  v2_reserves : List (Nat × Nat × Nat)

def lookupReserves (s : V2QuoteState) (pool : Nat) : Option (Nat × Nat) :=
  (s.v2_reserves.find? (fun e => e.1 = pool)).map (fun e => e.2)

/-- The 512-bit arithmetic tail of `calculate_expected_out_v2_pure`
(execution.rs:186-195), for already-selected `r_in`/`r_out`.  `none`
models a panic of a 512-bit operation. -/
def v2SwapOut (r_in r_out amount_in : Nat) : Option Nat :=
  match u512Mul amount_in 9970 with
  | none => none
  | some amount_in_with_fee =>
    match u512Mul amount_in_with_fee r_out with
    | none => none
    | some numerator =>
      match u512Mul r_in 10000 with
      | none => none
      | some d0 =>
        match u512Add d0 amount_in_with_fee with
        | none => none
        | some denominator =>
          if denominator ≠ 0 then
            some (numerator / denominator % u256Size)
          else some 0

/-- `calculate_expected_out_v2_pure` (execution.rs:143-196).
`none` models a panic of the 512-bit arithmetic; `some` is the returned
`U256` value (the low 256 bits of the quotient). -/
def calculate_expected_out_v2_pure (s : V2QuoteState)
    (token_in token_out amount_in : Nat) : Option Nat :=
  if amount_in = 0 then some 0 else
  match s.selected_pool_address with
  | none => some 0
  | some pool =>
    match lookupReserves s pool with
    | none => some 0
    | some (r0, r1) =>
      if r0 = 0 ∨ r1 = 0 then some 0 else
      let token0 := if token_in < token_out then token_in else token_out
      let rio := if token_in = token0 then (r0, r1) else (r1, r0)
      v2SwapOut rio.1 rio.2 amount_in

example :
    calculate_expected_out_v2_pure
      ⟨some 5, [(5, 1000, 2000)]⟩ 10 20 100 = some 181 := by decide

example :
    calculate_expected_out_v2_pure
      ⟨some 5, [(5, 1000, 2000)]⟩ 20 10 100 = some 47 := by decide

example :
    calculate_expected_out_v2_pure
      ⟨some 5, [(5, 1000, 2000)]⟩ 10 20 0 = some 0 := by decide

/-! Arithmetic facts about the V2 quote. -/

lemma v2_fee_lt (amount_in : Nat) (ha : amount_in < u256Size) :
    amount_in * 9970 < u512Size := by
  have h1 : amount_in * 9970 ≤ (2 ^ 256 - 1) * 9970 := by
    have : amount_in ≤ 2 ^ 256 - 1 := by
      have := ha; unfold u256Size at this; omega
    exact Nat.mul_le_mul_right _ this
  have h2 : (2 ^ 256 - 1) * 9970 < 2 ^ 512 := by norm_num
  unfold u512Size
  omega

lemma v2_num_lt (amount_in r_out : Nat) (ha : amount_in < u256Size)
    (hr : r_out < u128Size) :
    amount_in * 9970 * r_out < u512Size := by
  have h1 : amount_in * 9970 * r_out ≤ ((2 ^ 256 - 1) * 9970) * (2 ^ 128 - 1) := by
    apply Nat.mul_le_mul
    · apply Nat.mul_le_mul_right
      have := ha; unfold u256Size at this; omega
    · have := hr; unfold u128Size at this; omega
  have h2 : ((2 ^ 256 - 1) * 9970) * (2 ^ 128 - 1) < 2 ^ 512 := by norm_num
  unfold u512Size
  omega

lemma v2_den_lt (amount_in r_in : Nat) (ha : amount_in < u256Size)
    (hr : r_in < u128Size) :
    r_in * 10000 + amount_in * 9970 < u512Size := by
  have h1 : r_in * 10000 ≤ (2 ^ 128 - 1) * 10000 := by
    apply Nat.mul_le_mul_right
    have := hr; unfold u128Size at this; omega
  have h2 : amount_in * 9970 ≤ (2 ^ 256 - 1) * 9970 := by
    apply Nat.mul_le_mul_right
    have := ha; unfold u256Size at this; omega
  have h3 : (2 ^ 128 - 1) * 10000 + (2 ^ 256 - 1) * 9970 < 2 ^ 512 := by norm_num
  unfold u512Size
  omega

/-- Under the program invariant that V2 reserves are decoded from
`uint112`/`u128`-typed ABI values (hence below `2^128`) and the input
amount is a `U256`, none of the 512-bit operations overflow and the
code returns the claimed quotient. -/
lemma v2SwapOut_eq (r_in r_out amount_in : Nat) (hin : r_in ≠ 0)
    (hbin : r_in < u128Size) (hbout : r_out < u128Size)
    (ha : amount_in < u256Size) :
    v2SwapOut r_in r_out amount_in =
      some (amount_in * 9970 * r_out /
        (r_in * 10000 + amount_in * 9970) % u256Size) := by
  have hfee := v2_fee_lt amount_in ha
  have hnum := v2_num_lt amount_in r_out ha hbout
  have hden := v2_den_lt amount_in r_in ha hbin
  have hd0 : r_in * 10000 < u512Size := by omega
  have hdenne : r_in * 10000 + amount_in * 9970 ≠ 0 := by
    have : 1 ≤ r_in := Nat.one_le_iff_ne_zero.mpr hin
    nlinarith
  unfold v2SwapOut u512Mul u512Add
  simp only [hfee, if_pos, hnum, hd0, hden]
  simp [hdenne]


/-- With the selected pool's reserves present, nonzero and below
`2^128`, the quote equals the constant-product formula with fee 9970
over 10000 (shared by the C1 and C2 theorems). -/
lemma expected_out_v2_formula (s : V2QuoteState)
    (pool token_in token_out amount_in r0 r1 : Nat)
    (hsel : s.selected_pool_address = some pool)
    (hres : lookupReserves s pool = some (r0, r1))
    (h0 : r0 ≠ 0) (h1 : r1 ≠ 0)
    (hb0 : r0 < u128Size) (hb1 : r1 < u128Size)
    (ha : amount_in < u256Size) :
    calculate_expected_out_v2_pure s token_in token_out amount_in =
      some (amount_in * 9970 *
          (if token_in = min token_in token_out then r1 else r0) /
        ((if token_in = min token_in token_out then r0 else r1) * 10000 +
          amount_in * 9970) % u256Size) := by
  have hmin : (if token_in < token_out then token_in else token_out) =
      min token_in token_out := by
    rcases lt_trichotomy token_in token_out with h | h | h
    · simp [h, min_eq_left h.le]
    · simp [h]
    · have hnot : ¬ token_in < token_out := not_lt.mpr h.le
      simp [hnot, min_eq_right h.le]
  by_cases ha0 : amount_in = 0
  · subst ha0
    unfold calculate_expected_out_v2_pure
    simp only [eq_self_iff_true, ite_true, Nat.zero_mul, Nat.zero_div,
      Nat.zero_mod]
  · unfold calculate_expected_out_v2_pure
    rw [hsel]
    simp only [ha0, if_neg, hres, hmin]
    have hne : ¬ (r0 = 0 ∨ r1 = 0) := by
      push_neg; exact ⟨h0, h1⟩
    simp only [hne, if_neg, ite_false, not_false_iff]
    by_cases hsel0 : token_in = min token_in token_out
    · simp only [if_pos hsel0]
      exact v2SwapOut_eq r0 r1 amount_in h0 hb0 hb1 ha
    · simp only [if_neg hsel0]
      exact v2SwapOut_eq r1 r0 amount_in h1 hb1 hb0 ha

/-- C1: for every buy/sell quote against the selected V2 pool whose
reserves are present and both nonzero,
`calculate_expected_out_v2_pure(token_in, token_out, amount_in)` returns
the low 256 bits of the 512-bit quotient
`(amount_in * 9970 * reserve_out) / (reserve_in * 10000 + amount_in * 9970)`,
with `reserve_in`/`reserve_out` bound to `token_in`/`token_out` by the
canonical ordering `min(token_in, token_out) = token0`, `reserve0` bound
to `token0`.  The bounds `r0, r1 < 2^128` are the program invariant that
every value written into `v2_reserves` is decoded from a
`uint112`/`u128`-typed ABI field (monitor.rs:184, monitor.rs:592);
without them the 512-bit numerator could overflow and panic. -/
theorem claim_c1_expected_out_v2 (s : V2QuoteState)
    (pool token_in token_out amount_in r0 r1 : Nat)
    (hsel : s.selected_pool_address = some pool)
    (hres : lookupReserves s pool = some (r0, r1))
    (h0 : r0 ≠ 0) (h1 : r1 ≠ 0)
    (hb0 : r0 < u128Size) (hb1 : r1 < u128Size)
    (ha : amount_in < u256Size) :
    calculate_expected_out_v2_pure s token_in token_out amount_in =
      some (amount_in * 9970 *
          (if token_in = min token_in token_out then r1 else r0) /
        ((if token_in = min token_in token_out then r0 else r1) * 10000 +
          amount_in * 9970) % u256Size) :=
  expected_out_v2_formula s pool token_in token_out amount_in r0 r1
    hsel hres h0 h1 hb0 hb1 ha

/-- Witness for C1 at a concrete state. -/
theorem claim_c1_expected_out_v2_witness :
    calculate_expected_out_v2_pure ⟨some 5, [(5, 1000, 2000)]⟩ 10 20 100 =
      some (100 * 9970 * (if 10 = min 10 20 then 2000 else 1000) /
        ((if 10 = min 10 20 then 1000 else 2000) * 10000 + 100 * 9970) %
          u256Size) :=
  claim_c1_expected_out_v2 ⟨some 5, [(5, 1000, 2000)]⟩ 5 10 20 100 1000 2000
    rfl rfl (by decide) (by decide)
    (by unfold u128Size; norm_num) (by unfold u128Size; norm_num)
    (by unfold u256Size; norm_num)

/-! Monotonicity of the V2 quote (claim C2). -/

lemma nat_div_le_div_cross {n1 d1 n2 d2 : Nat} (hd1 : 0 < d1) (hd2 : 0 < d2)
    (h : n1 * d2 ≤ n2 * d1) : n1 / d1 ≤ n2 / d2 := by
  rw [Nat.le_div_iff_mul_le hd2]
  have h2 : n1 / d1 * d1 ≤ n1 := Nat.div_mul_le_self n1 d1
  have h1 : n1 / d1 * d2 * d1 ≤ n2 * d1 := by
    calc n1 / d1 * d2 * d1 = n1 / d1 * d1 * d2 := by ring
    _ ≤ n1 * d2 := Nat.mul_le_mul_right d2 h2
    _ ≤ n2 * d1 := h
  exact Nat.le_of_mul_le_mul_right h1 hd1

lemma v2_formula_mono (r_in r_out : Nat) (hin : 0 < r_in) {a b : Nat}
    (hab : a ≤ b) :
    a * 9970 * r_out / (r_in * 10000 + a * 9970) ≤
      b * 9970 * r_out / (r_in * 10000 + b * 9970) := by
  have h10 : 10000 ≤ r_in * 10000 := Nat.le_mul_of_pos_left 10000 hin
  have hda : 0 < r_in * 10000 + a * 9970 := by omega
  have hdb : 0 < r_in * 10000 + b * 9970 := by omega
  apply nat_div_le_div_cross hda hdb
  have key : a * (9970 * r_out * (r_in * 10000)) ≤
      b * (9970 * r_out * (r_in * 10000)) := Nat.mul_le_mul_right _ hab
  have e1 : a * 9970 * r_out * (r_in * 10000 + b * 9970) =
      a * (9970 * r_out * (r_in * 10000)) + a * b * (9970 * (9970 * r_out)) := by
    ring
  have e2 : b * 9970 * r_out * (r_in * 10000 + a * 9970) =
      b * (9970 * r_out * (r_in * 10000)) + a * b * (9970 * (9970 * r_out)) := by
    ring
  rw [e1, e2]
  exact Nat.add_le_add_right key _

lemma v2_formula_le_rout (r_in r_out x : Nat) (hin : 0 < r_in) :
    x * 9970 * r_out / (r_in * 10000 + x * 9970) ≤ r_out := by
  have h10 : 10000 ≤ r_in * 10000 := Nat.le_mul_of_pos_left 10000 hin
  have hden : 0 < r_in * 10000 + x * 9970 := by omega
  apply Nat.div_le_of_le_mul
  apply Nat.mul_le_mul_right
  omega

/-- C2: for a fixed selected V2 pool with fixed nonzero reserves the
quote is monotone in the input amount, and the quote of amount 0 is 0.
The reserve bounds `r0, r1 < 2^128` are the decode-type invariant of
`v2_reserves`, as in C1. -/
theorem claim_c2_expected_out_v2_monotone (s : V2QuoteState)
    (pool token_in token_out a b r0 r1 : Nat)
    (hsel : s.selected_pool_address = some pool)
    (hres : lookupReserves s pool = some (r0, r1))
    (h0 : r0 ≠ 0) (h1 : r1 ≠ 0)
    (hb0 : r0 < u128Size) (hb1 : r1 < u128Size)
    (hab : a < b) (hb : b < u256Size) :
    (∃ va vb,
      calculate_expected_out_v2_pure s token_in token_out a = some va ∧
      calculate_expected_out_v2_pure s token_in token_out b = some vb ∧
      va ≤ vb) ∧
    calculate_expected_out_v2_pure s token_in token_out 0 = some 0 := by
  have ha : a < u256Size := lt_trans hab hb
  have hrin : 0 < (if token_in = min token_in token_out then r0 else r1) := by
    split
    · exact Nat.pos_of_ne_zero h0
    · exact Nat.pos_of_ne_zero h1
  have hrout : (if token_in = min token_in token_out then r1 else r0) <
      u128Size := by
    split
    · exact hb1
    · exact hb0
  constructor
  · refine ⟨_, _,
      expected_out_v2_formula s pool token_in token_out a r0 r1
        hsel hres h0 h1 hb0 hb1 ha,
      expected_out_v2_formula s pool token_in token_out b r0 r1
        hsel hres h0 h1 hb0 hb1 hb, ?_⟩
    set rIn := if token_in = min token_in token_out then r0 else r1 with hrIn
    set rOut := if token_in = min token_in token_out then r1 else r0 with hrOut
    have hqa : a * 9970 * rOut / (rIn * 10000 + a * 9970) < u256Size := by
      have := v2_formula_le_rout rIn rOut a hrin
      have h2 : u128Size < u256Size := by
        unfold u128Size u256Size; norm_num
      omega
    have hqb : b * 9970 * rOut / (rIn * 10000 + b * 9970) < u256Size := by
      have := v2_formula_le_rout rIn rOut b hrin
      have h2 : u128Size < u256Size := by
        unfold u128Size u256Size; norm_num
      omega
    rw [Nat.mod_eq_of_lt hqa, Nat.mod_eq_of_lt hqb]
    exact v2_formula_mono rIn rOut hrin hab.le
  · unfold calculate_expected_out_v2_pure
    simp

/-- Witness for C2 at a concrete state. -/
theorem claim_c2_expected_out_v2_monotone_witness :
    (∃ va vb,
      calculate_expected_out_v2_pure ⟨some 5, [(5, 1000, 2000)]⟩ 10 20 100 =
        some va ∧
      calculate_expected_out_v2_pure ⟨some 5, [(5, 1000, 2000)]⟩ 10 20 200 =
        some vb ∧
      va ≤ vb) ∧
    calculate_expected_out_v2_pure ⟨some 5, [(5, 1000, 2000)]⟩ 10 20 0 =
      some 0 :=
  claim_c2_expected_out_v2_monotone ⟨some 5, [(5, 1000, 2000)]⟩ 5 10 20
    100 200 1000 2000 rfl rfl (by decide) (by decide)
    (by unfold u128Size; norm_num) (by unfold u128Size; norm_num)
    (by norm_num) (by unfold u256Size; norm_num)

/-! ## execution.rs: `run_batch_trade` per-wallet amount resolution

`parsed_amount_wei` is the result of `parse_units(amount, dec)` with a
parse failure mapped to zero (execution.rs:314-317); `override_wei` is
`amounts_wei[lowercase wallet]` parsed by `U256::from_dec_str`, `None`
when the map, the key or the parse is absent (execution.rs:320-328). -/

inductive TradeStepOutcome where
  | skipError (message : String)
  | proceed (amount_wei : Nat)
deriving DecidableEq

/-- Amount resolution of execution.rs:314-335. -/
def resolveAmountWei (action : String) (parsed_amount_wei : Nat)
    (override_wei : Option Nat) : Nat :=
  if action = "sell" then
    match override_wei with
    | some w => w
    | none => 0
  else parsed_amount_wei

/-- The zero-amount skip of execution.rs:337-351. -/
def batchTradeAmountStep (action : String) (parsed_amount_wei : Nat)
    (override_wei : Option Nat) : TradeStepOutcome :=
  let amount_wei := resolveAmountWei action parsed_amount_wei override_wei
  if amount_wei = 0 then
    TradeStepOutcome.skipError
      (if action = "sell" then "Zero balance to sell" else "Invalid amount")
  else TradeStepOutcome.proceed amount_wei

/-- C3 counterexample: in a sell with no per-wallet override entry the
parsed float amount (here 7 wei) is NOT used; the amount is forced to
zero and the wallet is skipped with a TradeStatus error.  The claim
says the float amount would be parsed and used as fallback. -/
theorem claim_c3_counterexample :
    resolveAmountWei "sell" 7 none = 0 ∧
    resolveAmountWei "sell" 7 none ≠ 7 ∧
    batchTradeAmountStep "sell" 7 none =
      TradeStepOutcome.skipError "Zero balance to sell" := by
  refine ⟨rfl, by decide, rfl⟩

/-- C3 (amended): in a sell batch the traded amount is the per-wallet
override when present; with no override the amount is zero — the float
amount is never used for sells — and a zero amount skips the wallet
with a TradeStatus error event. -/
theorem claim_c3_sell_amount_resolution :
    (∀ parsed w, resolveAmountWei "sell" parsed (some w) = w) ∧
    (∀ parsed, resolveAmountWei "sell" parsed none = 0) ∧
    (∀ parsed ow, resolveAmountWei "buy" parsed ow = parsed) ∧
    (∀ action parsed ow,
      resolveAmountWei action parsed ow = 0 →
      batchTradeAmountStep action parsed ow =
        TradeStepOutcome.skipError
          (if action = "sell" then "Zero balance to sell"
           else "Invalid amount")) ∧
    (∀ action parsed ow,
      resolveAmountWei action parsed ow ≠ 0 →
      batchTradeAmountStep action parsed ow =
        TradeStepOutcome.proceed (resolveAmountWei action parsed ow)) := by
  refine ⟨?_, ?_, ?_, ?_, ?_⟩
  · intro parsed w; rfl
  · intro parsed; rfl
  · intro parsed ow; rfl
  · intro action parsed ow h
    unfold batchTradeAmountStep
    simp [h]
  · intro action parsed ow h
    unfold batchTradeAmountStep
    simp [h]

/-- Witness for the amended C3. -/
theorem claim_c3_sell_amount_resolution_witness :
    batchTradeAmountStep "sell" 0 (some 0) =
      TradeStepOutcome.skipError "Zero balance to sell" ∧
    batchTradeAmountStep "sell" 0 (some 9) = TradeStepOutcome.proceed 9 :=
  ⟨claim_c3_sell_amount_resolution.2.2.2.1 "sell" 0 (some 0) rfl,
   claim_c3_sell_amount_resolution.2.2.2.2 "sell" 0 (some 9) (by decide)⟩

/-! ## execution.rs / engine.rs: gas price defaulting

`gas_gwei_to_wei` (execution.rs:44-48); the `f64` gas value is modelled
by `ℚ`, the `as u64` cast by floor with saturation at `2^64 - 1`. -/

def gas_gwei_to_wei (gas_gwei : ℚ) : Nat :=
  if gas_gwei ≤ 0 then 1000000000
  else min ((gas_gwei * 1000000000).floor.toNat) (2 ^ 64 - 1)

/-- The `ExecuteTrade` arm substitution (engine.rs:265): a requested
gas of zero or less is replaced by `state.manual_gas_price_gwei`. -/
def effective_gas_gwei (requested manual : ℚ) : ℚ :=
  if requested > 0 then requested else manual

/-- C4 counterexample: with requested gas 0 and `manual_gas_price_gwei`
0 the transaction gas price is `1e9` wei = 1 gwei, not the claimed
`1e8` wei = 0.1 gwei. -/
theorem claim_c4_counterexample :
    gas_gwei_to_wei (effective_gas_gwei 0 0) = 1000000000 ∧
    gas_gwei_to_wei (effective_gas_gwei 0 0) ≠ 100000000 := by
  constructor
  · norm_num [effective_gas_gwei, gas_gwei_to_wei]
  · norm_num [effective_gas_gwei, gas_gwei_to_wei]

/-- C4 (amended): a requested gas of zero or less is replaced by
`state.manual_gas_price_gwei`, and a non-positive effective gas falls
back to the fixed `1e9` wei = 1 gwei (not `1e8` wei). -/
theorem claim_c4_gas_defaulting (requested manual : ℚ)
    (hreq : requested ≤ 0) :
    effective_gas_gwei requested manual = manual ∧
    (manual ≤ 0 →
      gas_gwei_to_wei (effective_gas_gwei requested manual) = 1000000000) := by
  have h : ¬ requested > 0 := not_lt.mpr hreq
  constructor
  · simp [effective_gas_gwei, h]
  · intro hm
    simp [effective_gas_gwei, h, gas_gwei_to_wei, hm]

/-- Witness for the amended C4. -/
theorem claim_c4_gas_defaulting_witness :
    effective_gas_gwei (-1) 0 = 0 ∧
    ((0:ℚ) ≤ 0 →
      gas_gwei_to_wei (effective_gas_gwei (-1) 0) = 1000000000) :=
  claim_c4_gas_defaulting (-1) 0 (by norm_num)

/-! ## execution.rs: slippage factor and `min_out` (run_batch_trade) -/

/-- `(10000.0 - slippage * 100.0).max(0.0).min(10000.0) as u64`
(execution.rs:432), `f64` modelled by `ℚ` and the cast by floor. -/
def slippage_factor (slippage : ℚ) : Nat :=
  (min 10000 (max 0 (10000 - slippage * 100))).floor.toNat

/-- `(exp_out * U256::from(slippage_factor)) / U256::from(10000)`
(execution.rs:433); the `U256` multiplication panics (`none`) on
overflow past 256 bits. -/
def min_out (expected_out : Nat) (slippage : ℚ) : Option Nat :=
  if expected_out * slippage_factor slippage < u256Size then
    some (expected_out * slippage_factor slippage / 10000)
  else none

/-- C10: for every expected_out not exceeding `U256::MAX / 10000` and
every slippage value (negative and above 100 percent included), the
slippage factor lands in `[0, 10000]` and
`min_out = expected_out * factor / 10000` is computed without overflow
or underflow and never exceeds `expected_out`. -/
theorem claim_c10_slippage_clamp (expected_out : Nat) (slippage : ℚ)
    (h : expected_out ≤ (u256Size - 1) / 10000) :
    slippage_factor slippage ≤ 10000 ∧
    ∃ m, min_out expected_out slippage = some m ∧ m ≤ expected_out := by
  have hf : slippage_factor slippage ≤ 10000 := by
    unfold slippage_factor
    have h1 : min 10000 (max 0 (10000 - slippage * 100)) ≤ (10000 : ℚ) :=
      min_le_left _ _
    have h2 : (min 10000 (max 0 (10000 - slippage * 100))).floor ≤
        (10000 : ℤ) := by
      have h3 := Int.floor_le_floor h1
      simpa using h3
    exact Int.toNat_le.mpr h2
  have hmul : expected_out * slippage_factor slippage ≤
      (u256Size - 1) / 10000 * 10000 := by
    calc expected_out * slippage_factor slippage ≤ expected_out * 10000 :=
          Nat.mul_le_mul_left _ hf
    _ ≤ (u256Size - 1) / 10000 * 10000 := Nat.mul_le_mul_right _ h
  have hlt : expected_out * slippage_factor slippage < u256Size := by
    have h4 : (u256Size - 1) / 10000 * 10000 ≤ u256Size - 1 :=
      Nat.div_mul_le_self _ _
    have h5 : 0 < u256Size := by unfold u256Size; positivity
    omega
  refine ⟨hf, expected_out * slippage_factor slippage / 10000, ?_, ?_⟩
  · unfold min_out
    simp [hlt]
  · calc expected_out * slippage_factor slippage / 10000 ≤
        expected_out * 10000 / 10000 :=
          Nat.div_le_div_right (Nat.mul_le_mul_left _ hf)
    _ = expected_out := Nat.mul_div_cancel _ (by norm_num)

/-- Witness for C10 at a negative slippage. -/
theorem claim_c10_slippage_clamp_witness :
    slippage_factor (-5) ≤ 10000 ∧
    ∃ m, min_out 100 (-5) = some m ∧ m ≤ 100 :=
  claim_c10_slippage_clamp 100 (-5) (by norm_num [u256Size])

/-! ## state/network.rs: `RpcPoolState`

`latency` is a `u128` (values below `2^128`; freshly installed nodes
carry `u128::MAX`).  `get_fastest_node` is `iter().filter(fails < 3)
.min_by(comparator)`; Rust `min_by` folds keeping the accumulator
unless the comparator answers `Greater`. -/

structure RpcNode where
  url : String
  latency : Nat
  is_private : Bool
  fails : Nat
deriving DecidableEq

/-- The comparator closure of `get_fastest_node`
(state/network.rs:22-41), with `saturating_add` at `u128::MAX`. -/
def rpcCmp (a b : RpcNode) : Ordering :=
  if a.is_private && !b.is_private then
    if a.latency < u128SatAdd b.latency 50000 then Ordering.lt
    else Ordering.gt
  else if !a.is_private && b.is_private then
    if b.latency < u128SatAdd a.latency 50000 then Ordering.gt
    else Ordering.lt
  else compare a.latency b.latency

/-- Rust `Iterator::min_by` as a fold: the accumulator is kept unless
the comparator answers `Greater`. -/
def minByCmp (cmp : RpcNode → RpcNode → Ordering) :
    List RpcNode → Option RpcNode
  | [] => none
  | n :: ns =>
    some (ns.foldl (fun x y => if cmp x y = Ordering.gt then y else x) n)

/-- `RpcPoolState::get_fastest_node` (state/network.rs:19-44). -/
def get_fastest_node (nodes : List RpcNode) : Option String :=
  (minByCmp rpcCmp (nodes.filter (fun n => decide (n.fails < 3)))).map
    (fun n => n.url)

/-- `RpcPoolState::update_latency` (state/network.rs:56-61):
`iter_mut().find(url)` updates the first matching node, setting its
latency and zeroing `fails`. -/
def update_latency : List RpcNode → String → Nat → List RpcNode
  | [], _, _ => []
  | n :: ns, url, lat =>
    if n.url = url then { n with latency := lat, fails := 0 } :: ns
    else n :: update_latency ns url lat

lemma foldl_pick_mem {α : Type} (f : α → α → α)
    (hf : ∀ x y, f x y = x ∨ f x y = y) :
    ∀ (l : List α) (a : α), l.foldl f a = a ∨ l.foldl f a ∈ l := by
  intro l
  induction l with
  | nil => intro a; left; rfl
  | cons x xs ih =>
    intro a
    rw [List.foldl_cons]
    rcases hf a x with h | h
    · rcases ih (f a x) with h2 | h2
      · left; rw [h2, h]
      · right; exact List.mem_cons_of_mem _ h2
    · rcases ih (f a x) with h2 | h2
      · right; rw [h2, h]; exact List.mem_cons_self _ _
      · right; exact List.mem_cons_of_mem _ h2

lemma minByCmp_mem (cmp : RpcNode → RpcNode → Ordering)
    (l : List RpcNode) (r : RpcNode) (h : minByCmp cmp l = some r) :
    r ∈ l := by
  cases l with
  | nil => simp [minByCmp] at h
  | cons n ns =>
    simp only [minByCmp, Option.some.injEq] at h
    have hf : ∀ x y : RpcNode,
        (if cmp x y = Ordering.gt then y else x) = x ∨
        (if cmp x y = Ordering.gt then y else x) = y := by
      intro x y
      split
      · right; rfl
      · left; rfl
    rcases foldl_pick_mem _ hf ns n with h2 | h2
    · rw [← h]; rw [h2]; exact List.mem_cons_self _ _
    · rw [← h]; exact List.mem_cons_of_mem _ h2

/-- C7 counterexample: two freshly installed nodes (latency
`u128::MAX`, as set by `Init`), a private one listed first and a public
one.  The claimed ranking rule (plain addition) says the private node
wins, because its latency is NOT `≥ Q.latency + 50000`; the code's
`saturating_add` makes the comparator answer `Greater`, so the public
node is returned. -/
theorem claim_c7_counterexample :
    get_fastest_node
      [⟨"private", u128Size - 1, true, 0⟩,
       ⟨"public", u128Size - 1, false, 0⟩] = some "public" ∧
    ¬ (u128Size - 1 ≥ (u128Size - 1) + 50000) := by
  constructor
  · decide
  · unfold u128Size
    omega

/-- C7 (amended): `get_fastest_node` never returns a node with
`fails ≥ 3`; between an eligible private node P and an eligible public
node Q it returns P exactly when
`P.latency < saturating_add(Q.latency, 50000)` (the claimed plain
addition only differs at the `u128::MAX` saturation point); and
`update_latency` zeroes the `fails` counter of the measured node. -/
theorem claim_c7_fastest_node_ranking :
    (∀ (nodes : List RpcNode) (u : String),
      get_fastest_node nodes = some u →
      ∃ n, n ∈ nodes ∧ n.fails < 3 ∧ n.url = u) ∧
    (∀ P Q : RpcNode, P.is_private = true → Q.is_private = false →
      P.fails < 3 → Q.fails < 3 →
      get_fastest_node [P, Q] =
        some (if P.latency < u128SatAdd Q.latency 50000
              then P.url else Q.url)) ∧
    (∀ (nodes : List RpcNode) (url : String) (lat : Nat) (n : RpcNode),
      n ∈ update_latency nodes url lat →
      n ∈ nodes ∨ (n.url = url ∧ n.latency = lat ∧ n.fails = 0)) ∧
    (∀ (nodes : List RpcNode) (url : String) (lat : Nat),
      (∃ n ∈ nodes, n.url = url) →
      ∃ n ∈ update_latency nodes url lat,
        n.url = url ∧ n.latency = lat ∧ n.fails = 0) := by
  refine ⟨?_, ?_, ?_, ?_⟩
  · intro nodes u h
    unfold get_fastest_node at h
    cases hmin : minByCmp rpcCmp
        (nodes.filter (fun n => decide (n.fails < 3))) with
    | none => rw [hmin] at h; simp at h
    | some r =>
      rw [hmin] at h
      simp at h
      have hr := minByCmp_mem _ _ _ hmin
      rcases List.mem_filter.mp hr with ⟨hmem, hp⟩
      exact ⟨r, hmem, by simpa using hp, h⟩
  · intro P Q hP hQ hPf hQf
    unfold get_fastest_node
    have hfil : [P, Q].filter (fun n => decide (n.fails < 3)) = [P, Q] := by
      simp [List.filter, hPf, hQf]
    rw [hfil]
    unfold minByCmp
    simp only [List.foldl_cons, List.foldl_nil]
    unfold rpcCmp
    rw [hP, hQ]
    simp only [Bool.not_false, Bool.and_self, if_pos]
    by_cases hc : P.latency < u128SatAdd Q.latency 50000
    · simp [hc]
    · simp [hc]
  · intro nodes url lat
    induction nodes with
    | nil => intro n h; simp [update_latency] at h
    | cons m ms ih =>
      intro n h
      unfold update_latency at h
      by_cases hm : m.url = url
      · rw [if_pos hm] at h
        rcases List.mem_cons.mp h with h2 | h2
        · right
          rw [h2]
          exact ⟨hm, rfl, rfl⟩
        · left; exact List.mem_cons_of_mem _ h2
      · rw [if_neg hm] at h
        rcases List.mem_cons.mp h with h2 | h2
        · left; rw [h2]; exact List.mem_cons_self _ _
        · rcases ih n h2 with h3 | h3
          · left; exact List.mem_cons_of_mem _ h3
          · right; exact h3
  · intro nodes url lat
    induction nodes with
    | nil =>
      intro h
      rcases h with ⟨n, hn, _⟩
      simp at hn
    | cons m ms ih =>
      intro h
      unfold update_latency
      by_cases hm : m.url = url
      · rw [if_pos hm]
        exact ⟨{ m with latency := lat, fails := 0 },
          List.mem_cons_self _ _, hm, rfl, rfl⟩
      · rw [if_neg hm]
        rcases h with ⟨n, hn, hnu⟩
        rcases List.mem_cons.mp hn with h2 | h2
        · exact absurd (h2 ▸ hnu) hm
        · rcases ih ⟨n, h2, hnu⟩ with ⟨n2, hn2, hprops⟩
          exact ⟨n2, List.mem_cons_of_mem _ hn2, hprops⟩

/-- Witness for the amended C7. -/
theorem claim_c7_fastest_node_ranking_witness :
    get_fastest_node [⟨"fast-private", 10, true, 0⟩,
        ⟨"slow-public", 5, false, 0⟩] =
      some (if 10 < u128SatAdd 5 50000 then "fast-private"
            else "slow-public") ∧
    ∃ n ∈ update_latency [⟨"slow-public", 5, false, 2⟩] "slow-public" 7,
      n.url = "slow-public" ∧ n.latency = 7 ∧ n.fails = 0 :=
  ⟨claim_c7_fastest_node_ranking.2.1 ⟨"fast-private", 10, true, 0⟩
      ⟨"slow-public", 5, false, 0⟩ rfl rfl (by decide) (by decide),
   claim_c7_fastest_node_ranking.2.2.2 [⟨"slow-public", 5, false, 2⟩]
      "slow-public" 7 ⟨⟨"slow-public", 5, false, 2⟩, by simp, rfl⟩⟩

/-! ## bridge/mod.rs: `emit_event` deduplication

`f64` payload fields are carried as their `to_bits` patterns (`Nat`),
because the dedup cache compares bit patterns.  `otherEvent` stands for
every variant handled by the `_ => true` arm (EngineReady, Log,
PoolDetected, PoolNotFound, PnLUpdate, TradeStatus, TxSent,
TxConfirmed, AutoFuelError). -/

inductive EngineEventM where
  | balanceUpdate (wallet token wei : String) (float_val_bits : Nat)
      (symbol : String)
  | poolUpdate (pool_address pool_type token quote : String)
      (reserve0 reserve1 sqrt_price_x96 : Option String)
      (tick : Option Int) (liquidity : Option Nat)
      (spot_price_bits liquidity_usd_bits : Option Nat)
  | gasPriceUpdate (gas_price_gwei_bits : Nat)
  | connectionStatus (connected : Bool) (message : String)
  | impactUpdate (token quote : String) (amount_in_bits : Nat)
      (impact_pct_bits : Nat) (expected_out : String) (is_buy : Bool)
  | otherEvent
deriving DecidableEq

/-- The five one-frame dedup caches (bridge/mod.rs:13-17). -/
structure DedupState where
  lastBalance : Option String
  lastPool : Option String
  lastGas : Option Nat
  lastConn : Option String
  lastImpact : Option Nat
deriving DecidableEq

def initialDedup : DedupState := ⟨none, none, none, none, none⟩

/-- `format!("{}:{}:{}", reserve0.unwrap_or("0"),
reserve1.unwrap_or("0"), spot_price.map(to_bits).unwrap_or(0))`
(bridge/mod.rs:47-52). -/
def poolDedupKey (r0 r1 : Option String) (spot_bits : Option Nat) : String :=
  r0.getD "0" ++ ":" ++ r1.getD "0" ++ ":" ++ toString (spot_bits.getD 0)

/-- `format!("{}:{}", connected, message)` (bridge/mod.rs:69). -/
def connDedupKey (connected : Bool) (message : String) : String :=
  (if connected then "true" else "false") ++ ":" ++ message

/-- `emit_event` (bridge/mod.rs:36-93) as a state transition: the
returned `Bool` is whether the event is forwarded to the UI. -/
def emit_event_step (e : EngineEventM) (s : DedupState) :
    Bool × DedupState :=
  match e with
  | EngineEventM.balanceUpdate _ _ wei _ _ =>
    match s.lastBalance with
    | some prev =>
      if prev = wei then (false, s)
      else (true, { s with lastBalance := some wei })
    | none => (true, { s with lastBalance := some wei })
  | EngineEventM.poolUpdate _ _ _ _ r0 r1 _ _ _ sb _ =>
    let current := poolDedupKey r0 r1 sb
    match s.lastPool with
    | some prev =>
      if prev = current then (false, s)
      else (true, { s with lastPool := some current })
    | none => (true, { s with lastPool := some current })
  | EngineEventM.gasPriceUpdate g =>
    match s.lastGas with
    | some prev =>
      if prev = g then (false, s)
      else (true, { s with lastGas := some g })
    | none => (true, { s with lastGas := some g })
  | EngineEventM.connectionStatus c m =>
    let current := connDedupKey c m
    match s.lastConn with
    | some prev =>
      if prev = current then (false, s)
      else (true, { s with lastConn := some current })
    | none => (true, { s with lastConn := some current })
  | EngineEventM.impactUpdate _ _ _ i _ _ =>
    match s.lastImpact with
    | some prev =>
      if prev = i then (false, s)
      else (true, { s with lastImpact := some i })
    | none => (true, { s with lastImpact := some i })
  | EngineEventM.otherEvent => (true, s)

/-- Whether each event of a sequence is forwarded. -/
def emitList : List EngineEventM → DedupState → List Bool
  | [], _ => []
  | e :: es, s =>
    let r := emit_event_step e s
    r.1 :: emitList es r.2

/-- C6 counterexample: two consecutive `BalanceUpdate` events that
differ in the `wallet` field but carry the same `wei` string — the
claim says both are forwarded; the code keys the balance dedup on
`wei` alone and drops the second. -/
theorem claim_c6_counterexample :
    emitList
      [EngineEventM.balanceUpdate "0xaaaa" "0xtok" "5" 0 "NATIVE",
       EngineEventM.balanceUpdate "0xbbbb" "0xtok" "5" 0 "NATIVE"]
      initialDedup = [true, false] ∧
    EngineEventM.balanceUpdate "0xaaaa" "0xtok" "5" 0 "NATIVE" ≠
      EngineEventM.balanceUpdate "0xbbbb" "0xtok" "5" 0 "NATIVE" := by
  exact ⟨rfl, by decide⟩

lemma dedup_set_balance (s : DedupState) (w : Option String)
    (h : s.lastBalance = w) : { s with lastBalance := w } = s := by
  cases s
  simp only at h
  rw [← h]

lemma dedup_set_pool (s : DedupState) (w : Option String)
    (h : s.lastPool = w) : { s with lastPool := w } = s := by
  cases s
  simp only at h
  rw [← h]

lemma dedup_set_gas (s : DedupState) (w : Option Nat)
    (h : s.lastGas = w) : { s with lastGas := w } = s := by
  cases s
  simp only at h
  rw [← h]

lemma dedup_set_conn (s : DedupState) (w : Option String)
    (h : s.lastConn = w) : { s with lastConn := w } = s := by
  cases s
  simp only at h
  rw [← h]

lemma dedup_set_impact (s : DedupState) (w : Option Nat)
    (h : s.lastImpact = w) : { s with lastImpact := w } = s := by
  cases s
  simp only at h
  rw [← h]

lemma balance_step_eq (w t wei : String) (fb : Nat) (sym : String)
    (s : DedupState) :
    emit_event_step (EngineEventM.balanceUpdate w t wei fb sym) s =
      (decide (s.lastBalance ≠ some wei),
       { s with lastBalance := some wei }) := by
  unfold emit_event_step
  dsimp only
  cases hs : s.lastBalance with
  | none => simp
  | some prev =>
    dsimp only
    by_cases hp : prev = wei
    · rw [if_pos hp]
      rw [hp] at hs
      rw [dedup_set_balance s (some wei) hs]
      simp [hp]
    · rw [if_neg hp]
      have h2 : some prev ≠ some wei := by
        intro h3
        exact hp (Option.some.inj h3)
      simp [h2]

/-- Sequence absorption: once the balance cache holds `wei`, a run of
identical-`wei` balance events is entirely dropped. -/
lemma emitList_balance_absorb (w t wei : String) (fb : Nat) (sym : String)
    (k : Nat) :
    ∀ s : DedupState, s.lastBalance = some wei →
    emitList (List.replicate k (EngineEventM.balanceUpdate w t wei fb sym))
      s = List.replicate k false := by
  induction k with
  | zero => intro s _; rfl
  | succ k ih =>
    intro s hs
    rw [List.replicate_succ]
    unfold emitList
    rw [balance_step_eq]
    have h1 : decide (s.lastBalance ≠ some wei) = false := by
      rw [hs]; simp
    dsimp only
    rw [h1, List.replicate_succ]
    have h2 : ({ s with lastBalance := some wei } :
        DedupState).lastBalance = some wei := rfl
    rw [ih _ h2]

lemma pool_step_eq (pa pt t q : String) (r0 r1 sq : Option String)
    (tk : Option Int) (lq : Option Nat) (sb lb : Option Nat)
    (s : DedupState) :
    emit_event_step
        (EngineEventM.poolUpdate pa pt t q r0 r1 sq tk lq sb lb) s =
      (decide (s.lastPool ≠ some (poolDedupKey r0 r1 sb)),
       { s with lastPool := some (poolDedupKey r0 r1 sb) }) := by
  unfold emit_event_step
  dsimp only
  cases hs : s.lastPool with
  | none => simp
  | some prev =>
    dsimp only
    by_cases hp : prev = poolDedupKey r0 r1 sb
    · rw [if_pos hp]
      rw [hp] at hs
      rw [dedup_set_pool s (some (poolDedupKey r0 r1 sb)) hs]
      simp [hp]
    · rw [if_neg hp]
      have h2 : some prev ≠ some (poolDedupKey r0 r1 sb) := by
        intro h3
        exact hp (Option.some.inj h3)
      simp [h2]

lemma gas_step_eq (g : Nat) (s : DedupState) :
    emit_event_step (EngineEventM.gasPriceUpdate g) s =
      (decide (s.lastGas ≠ some g), { s with lastGas := some g }) := by
  unfold emit_event_step
  dsimp only
  cases hs : s.lastGas with
  | none => simp
  | some prev =>
    dsimp only
    by_cases hp : prev = g
    · rw [if_pos hp]
      rw [hp] at hs
      rw [dedup_set_gas s (some g) hs]
      simp [hp]
    · rw [if_neg hp]
      have h2 : some prev ≠ some g := by
        intro h3
        exact hp (Option.some.inj h3)
      simp [h2]

lemma conn_step_eq (c : Bool) (m : String) (s : DedupState) :
    emit_event_step (EngineEventM.connectionStatus c m) s =
      (decide (s.lastConn ≠ some (connDedupKey c m)),
       { s with lastConn := some (connDedupKey c m) }) := by
  unfold emit_event_step
  dsimp only
  cases hs : s.lastConn with
  | none => simp
  | some prev =>
    dsimp only
    by_cases hp : prev = connDedupKey c m
    · rw [if_pos hp]
      rw [hp] at hs
      rw [dedup_set_conn s (some (connDedupKey c m)) hs]
      simp [hp]
    · rw [if_neg hp]
      have h2 : some prev ≠ some (connDedupKey c m) := by
        intro h3
        exact hp (Option.some.inj h3)
      simp [h2]

lemma impact_step_eq (t q : String) (ab i : Nat) (eo : String) (b : Bool)
    (s : DedupState) :
    emit_event_step (EngineEventM.impactUpdate t q ab i eo b) s =
      (decide (s.lastImpact ≠ some i), { s with lastImpact := some i }) := by
  unfold emit_event_step
  dsimp only
  cases hs : s.lastImpact with
  | none => simp
  | some prev =>
    dsimp only
    by_cases hp : prev = i
    · rw [if_pos hp]
      rw [hp] at hs
      rw [dedup_set_impact s (some i) hs]
      simp [hp]
    · rw [if_neg hp]
      have h2 : some prev ≠ some i := by
        intro h3
        exact hp (Option.some.inj h3)
      simp [h2]

/-- C6 (amended): an event of a dedup kind is forwarded exactly when
its canonical dedup key differs from the cached key of its kind, and
the cache afterwards holds its key.  The canonical keys are `wei`
alone for `BalanceUpdate`, `(reserve0, reserve1, spot_price bits)` for
`PoolUpdate`, the gas bits for `GasPriceUpdate`, `(connected, message)`
for `ConnectionStatus` and the impact bits alone for `ImpactUpdate` —
NOT the full payload.  A run of identical-key balance events forwards
only its first (last conjunct); a different key in between resets the
anchor, because the cache always ends up holding the last key. -/
theorem claim_c6_dedup_by_canonical_key :
    (∀ w t wei fb sym s,
      emit_event_step (EngineEventM.balanceUpdate w t wei fb sym) s =
        (decide (s.lastBalance ≠ some wei),
         { s with lastBalance := some wei })) ∧
    (∀ pa pt t q r0 r1 sq tk lq sb lb s,
      emit_event_step
          (EngineEventM.poolUpdate pa pt t q r0 r1 sq tk lq sb lb) s =
        (decide (s.lastPool ≠ some (poolDedupKey r0 r1 sb)),
         { s with lastPool := some (poolDedupKey r0 r1 sb) })) ∧
    (∀ g s, emit_event_step (EngineEventM.gasPriceUpdate g) s =
      (decide (s.lastGas ≠ some g), { s with lastGas := some g })) ∧
    (∀ c m s, emit_event_step (EngineEventM.connectionStatus c m) s =
      (decide (s.lastConn ≠ some (connDedupKey c m)),
       { s with lastConn := some (connDedupKey c m) })) ∧
    (∀ t q ab i eo b s,
      emit_event_step (EngineEventM.impactUpdate t q ab i eo b) s =
        (decide (s.lastImpact ≠ some i),
         { s with lastImpact := some i })) ∧
    (∀ w t wei fb sym s k,
      emitList
          (List.replicate (k + 1)
            (EngineEventM.balanceUpdate w t wei fb sym)) s =
        decide (s.lastBalance ≠ some wei) :: List.replicate k false) := by
  refine ⟨balance_step_eq, pool_step_eq, gas_step_eq, conn_step_eq,
    impact_step_eq, ?_⟩
  intro w t wei fb sym s k
  rw [List.replicate_succ]
  unfold emitList
  rw [balance_step_eq]
  dsimp only
  rw [emitList_balance_absorb w t wei fb sym k
    { s with lastBalance := some wei } rfl]

/-! ## engine.rs: address parsing in the command arms

`Address::from_str` (ethers `H160` via fixed-hash): an optional `0x`
prefix is stripped, then exactly 40 hex digits are required.  In the
`Init` arm (engine.rs:45-46) the router and quoter are `.unwrap()`ed —
a parse failure PANICS the engine task; the factory/native addresses
fall back to zero via `unwrap_or`.  `SwitchToken` (engine.rs:129-130),
`CalcImpact` (engine.rs:181-182) and `ExecuteTrade` (engine.rs:258-259)
`.unwrap()` both their addresses.  A panic is modelled by `none`; on
the panic path no event of any kind is emitted. -/

def hexDigitVal (c : Char) : Option Nat :=
  if 48 ≤ c.toNat ∧ c.toNat ≤ 57 then some (c.toNat - 48)
  else if 97 ≤ c.toNat ∧ c.toNat ≤ 102 then some (c.toNat - 87)
  else if 65 ≤ c.toNat ∧ c.toNat ≤ 70 then some (c.toNat - 55)
  else none

/-- `Address::from_str` for a 20-byte address: strip an optional `0x`
prefix, then require exactly 40 hex digits. -/
def addressFromStr (s : String) : Option Nat :=
  let chars := s.toList
  let body := match chars with
    | '0' :: 'x' :: rest => rest
    | _ => chars
  if body.length = 40 then
    body.foldl
      (fun acc c =>
        match acc, hexDigitVal c with
        | some a, some d => some (a * 16 + d)
        | _, _ => none)
      (some 0)
  else none

/-- The double `.unwrap()` at the head of the `SwitchToken`,
`CalcImpact` and `ExecuteTrade` arms: `none` models the panic that
terminates the engine loop task. -/
def unwrapAddrPair (first_address second_address : String) :
    Option (Nat × Nat) :=
  match addressFromStr first_address with
  | none => none
  | some a =>
    match addressFromStr second_address with
    | none => none
    | some b => some (a, b)

/-- The `Init` arm address resolution (engine.rs:45-50): router and
quoter are `.unwrap()`ed, the other four fall back to
`Address::zero()`. -/
def initResolveAddrs (router quoter v2_factory v3_factory
    wrapped_native native_address : String) :
    Option (Nat × Nat × Nat × Nat × Nat × Nat) :=
  match addressFromStr router with
  | none => none
  | some r =>
    match addressFromStr quoter with
    | none => none
    | some q =>
      some (r, q, (addressFromStr v2_factory).getD 0,
        (addressFromStr v3_factory).getD 0,
        (addressFromStr wrapped_native).getD 0,
        (addressFromStr native_address).getD 0)

example : addressFromStr "0x0000000000000000000000000000000000000001" =
    some 1 := by decide

example : addressFromStr "not_an_address" = none := by decide

/-- C5 counterexample: an unparseable token address in `SwitchToken`
(equally `CalcImpact`/`ExecuteTrade`, and an unparseable router in
`Init`) makes the arm panic (`none`) via `.unwrap()` — no `Log` event
with level ERROR and no `TradeStatus` is emitted on this path, and the
engine command-consumer task terminates, contradicting the claimed
graceful rejection. -/
theorem claim_c5_counterexample :
    addressFromStr "not_an_address" = none ∧
    unwrapAddrPair "not_an_address"
      "0x0000000000000000000000000000000000000001" = none ∧
    initResolveAddrs "not_an_address"
      "0x0000000000000000000000000000000000000001" "" "" "" "" = none := by
  refine ⟨by decide, by decide, by decide⟩

/-- C5 (amended): in the `Init` (router/quoter), `SwitchToken`,
`CalcImpact` and `ExecuteTrade` arms an unparseable address string
panics the engine loop via `.unwrap()` — the command is not rejected
gracefully and no ERROR log or TradeStatus event is emitted; only the
auxiliary `Init` addresses (factories, wrapped native, native) fall
back to zero instead of panicking. -/
theorem claim_c5_bad_address_panics :
    (∀ a1 a2, unwrapAddrPair a1 a2 = none ↔
      (addressFromStr a1 = none ∨ addressFromStr a2 = none)) ∧
    (∀ r q v2 v3 wn na, initResolveAddrs r q v2 v3 wn na = none ↔
      (addressFromStr r = none ∨ addressFromStr q = none)) := by
  constructor
  · intro a1 a2
    unfold unwrapAddrPair
    cases addressFromStr a1 with
    | none => simp
    | some a => cases addressFromStr a2 with
      | none => simp
      | some b => simp
  · intro r q v2 v3 wn na
    unfold initResolveAddrs
    cases addressFromStr r with
    | none => simp
    | some a => cases addressFromStr q with
      | none => simp
      | some b => simp

/-! ## monitor.rs: auto-fuel trigger (blocks task)

State slice read by the per-block fuel check
(monitor.rs:420-452).  `auto_fuel_attempts` and `wallet_keys` are
`HashMap`s, modelled as association lists with first-match lookup;
`HashMap::insert` is modelled by prepending, so lookup sees the new
binding. -/

structure FuelState where
  fuel_enabled : Bool
  fuel_threshold : Nat
  fuel_quote_address : Nat
  auto_fuel_attempts : List (Nat × Nat × Nat)
  wallet_keys : List (Nat × String)

/-- `s.auto_fuel_attempts.get(&wallet).unwrap_or(&(0, 0))`. -/
def getFuelAttempts (s : FuelState) (wallet : Nat) : Nat × Nat :=
  (((s.auto_fuel_attempts.find? (fun e => e.1 = wallet)).map
    (fun e => e.2)).getD (0, 0))

def lookupWalletKey (s : FuelState) (wallet : Nat) : Option String :=
  (s.wallet_keys.find? (fun e => e.1 = wallet)).map (fun e => e.2)

/-- The fuel-job guard evaluated per new block per wallet
(monitor.rs:420-435): a job is spawned exactly when this is `true`.
`now - last_ts` is `u64` subtraction; timestamps are monotone, so the
`Nat` truncated subtraction coincides under `last_ts ≤ now`. -/
def fuelJobStarts (s : FuelState) (wallet balance now : Nat) : Bool :=
  if s.fuel_enabled && decide (balance < s.fuel_threshold) &&
      decide (s.fuel_quote_address ≠ 0) then
    let a := getFuelAttempts s wallet
    if decide (a.1 < 5) && decide (now - a.2 > 60000) then
      (lookupWalletKey s wallet).isSome
    else false
  else false

def insertFuelAttempts (s : FuelState) (wallet : Nat) (v : Nat × Nat) :
    FuelState :=
  { s with auto_fuel_attempts := (wallet, v.1, v.2) :: s.auto_fuel_attempts }

/-- The increment before the `run_auto_fuel` call
(monitor.rs:438-444). -/
def fuelAttemptsAfterStart (s : FuelState) (wallet now2 : Nat) :
    FuelState :=
  insertFuelAttempts s wallet ((getFuelAttempts s wallet).1 + 1, now2)

/-- The reset on success (monitor.rs:450-452). -/
def fuelAttemptsAfterSuccess (s : FuelState) (wallet : Nat) : FuelState :=
  insertFuelAttempts s wallet (0, 0)

/-- C8 counterexample: wallet 7 with one previous attempt at
timestamp 1000 and the block arriving at timestamp 61000 — exactly
60 000 ms have elapsed.  The claim's trigger (enabled, balance below
threshold, nonzero quote, attempts < 5, at least 60 000 ms elapsed) is
satisfied, yet the code, which requires strictly more than 60 000 ms,
starts no fuel job. -/
theorem claim_c8_counterexample :
    fuelJobStarts ⟨true, 10, 1, [(7, 1, 1000)], [(7, "pk")]⟩ 7 5 61000 =
      false ∧
    ((5 : Nat) < 10 ∧ (1 : Nat) ≠ 0 ∧ (1 : Nat) < 5 ∧
      61000 - 1000 ≥ 60000) := by
  exact ⟨rfl, by norm_num⟩

/-- C8 (amended): a fuel job starts if and only if fuel is enabled,
the native balance is strictly below the threshold (equality triggers
nothing), the fuel quote address is nonzero, the wallet's attempt count
is below 5, STRICTLY more than 60 000 ms have elapsed since the last
attempt, and the wallet has a tracked signing key; the attempt counter
is incremented (with a fresh timestamp) before the call and reset to
`(0, 0)` on success. -/
theorem claim_c8_fuel_trigger (s : FuelState) (wallet balance now : Nat)
    (hts : (getFuelAttempts s wallet).2 ≤ now) :
    (fuelJobStarts s wallet balance now = true ↔
      (s.fuel_enabled = true ∧ balance < s.fuel_threshold ∧
       s.fuel_quote_address ≠ 0 ∧ (getFuelAttempts s wallet).1 < 5 ∧
       now - (getFuelAttempts s wallet).2 > 60000 ∧
       (lookupWalletKey s wallet).isSome = true)) ∧
    (∀ now2,
      getFuelAttempts (fuelAttemptsAfterStart s wallet now2) wallet =
        ((getFuelAttempts s wallet).1 + 1, now2)) ∧
    getFuelAttempts (fuelAttemptsAfterSuccess s wallet) wallet = (0, 0) := by
  refine ⟨?_, ?_, ?_⟩
  · unfold fuelJobStarts
    by_cases h1 : s.fuel_enabled && decide (balance < s.fuel_threshold) &&
        decide (s.fuel_quote_address ≠ 0)
    · rw [if_pos h1]
      simp only [Bool.and_eq_true, decide_eq_true_eq] at h1
      by_cases h2 : decide ((getFuelAttempts s wallet).1 < 5) &&
          decide (now - (getFuelAttempts s wallet).2 > 60000)
      · rw [if_pos h2]
        simp only [Bool.and_eq_true, decide_eq_true_eq] at h2
        constructor
        · intro h3
          exact ⟨h1.1.1, h1.1.2, h1.2, h2.1, h2.2, h3⟩
        · intro h3
          exact h3.2.2.2.2.2
      · rw [if_neg h2]
        simp only [Bool.and_eq_true, decide_eq_true_eq, not_and_or] at h2
        constructor
        · intro h3
          exact absurd h3 (by simp)
        · intro h3
          rcases h2 with h2 | h2
          · exact absurd h3.2.2.2.1 h2
          · exact absurd h3.2.2.2.2.1 h2
    · rw [if_neg h1]
      simp only [Bool.and_eq_true, decide_eq_true_eq, not_and_or] at h1
      constructor
      · intro h3
        exact absurd h3 (by simp)
      · intro h3
        rcases h1 with h1 | h1
        · rcases h1 with h1 | h1
          · exact absurd h3.1 h1
          · exact absurd h3.2.1 h1
        · exact absurd h3.2.2.1 h1
  · intro now2
    unfold fuelAttemptsAfterStart insertFuelAttempts getFuelAttempts
    simp [List.find?]
  · unfold fuelAttemptsAfterSuccess insertFuelAttempts getFuelAttempts
    simp [List.find?]

/-- Witness for the amended C8: one previous attempt 60 001 ms ago. -/
theorem claim_c8_fuel_trigger_witness :
    (fuelJobStarts ⟨true, 10, 1, [(7, 1, 1000)], [(7, "pk")]⟩ 7 5 61001 =
        true ↔
      ((true : Bool) = true ∧ (5 : Nat) < 10 ∧ (1 : Nat) ≠ 0 ∧
       (getFuelAttempts ⟨true, 10, 1, [(7, 1, 1000)], [(7, "pk")]⟩ 7).1 <
         5 ∧
       61001 -
         (getFuelAttempts ⟨true, 10, 1, [(7, 1, 1000)], [(7, "pk")]⟩ 7).2 >
           60000 ∧
       (lookupWalletKey ⟨true, 10, 1, [(7, 1, 1000)], [(7, "pk")]⟩
         7).isSome = true)) ∧
    (∀ now2,
      getFuelAttempts
        (fuelAttemptsAfterStart ⟨true, 10, 1, [(7, 1, 1000)], [(7, "pk")]⟩
          7 now2) 7 =
        ((getFuelAttempts ⟨true, 10, 1, [(7, 1, 1000)], [(7, "pk")]⟩ 7).1 +
          1, now2)) ∧
    getFuelAttempts
      (fuelAttemptsAfterSuccess ⟨true, 10, 1, [(7, 1, 1000)], [(7, "pk")]⟩
        7) 7 = (0, 0) :=
  claim_c8_fuel_trigger ⟨true, 10, 1, [(7, 1, 1000)], [(7, "pk")]⟩ 7 5 61001
    (by decide)

/-! ## monitor.rs: V2 spot price from a Sync event

`wei_to_float` and `calculate_v2_liquidity_usd_and_price`
(monitor.rs:90-102, 749-764) work on `f64`; they are modelled over `ℚ`
(all the concrete instances below are exact in both semantics).  In
the prefetch path (monitor.rs:182-183) the decimals are reordered with
`if t0_is_quote { (q_dec, t_dec) } else { (t_dec, q_dec) }` before the
call; the Sync handler of the pools task (monitor.rs:594-597) passes
`(t_dec, q_dec)` as `(token0_decimals, token1_decimals)` WITHOUT
reordering. -/

def wei_to_float (wei : Nat) (decimals : Nat) : ℚ :=
  (wei : ℚ) / 10 ^ min decimals 77

def calculate_v2_liquidity_usd_and_price (reserve0 reserve1 : Nat)
    (token0_decimals token1_decimals : Nat) (token0_is_quote : Bool)
    (quote_price_usd : ℚ) : ℚ × ℚ :=
  let r0_f := wei_to_float reserve0 token0_decimals
  let r1_f := wei_to_float reserve1 token1_decimals
  if r0_f = 0 ∨ r1_f = 0 then (0, 0)
  else
    let price_in_quote := if token0_is_quote then r0_f / r1_f
      else r1_f / r0_f
    let liq := if token0_is_quote then 2 * r0_f * quote_price_usd
      else 2 * r1_f * quote_price_usd
    (liq, price_in_quote)

/-- The spot price derived by the Sync handler (monitor.rs:594-597):
`t_dec` (target-token decimals) and `q_dec` (quote decimals) are passed
positionally as `(token0_decimals, token1_decimals)`. -/
def syncSpotPrice (r0 r1 : Nat) (t_dec q_dec : Nat)
    (t0_is_quote : Bool) (quote_price_usd : ℚ) : ℚ :=
  (calculate_v2_liquidity_usd_and_price r0 r1 t_dec q_dec t0_is_quote
    quote_price_usd).2

/-- C9: the equal-decimals instance of the claim holds (reserves
(100, 200), token0 the quote, spot 0.5), but for a Sync update with
token0 = quote and different decimals (token 18, quote 6; reserves
10^6 quote-wei = 1.0 quote and 2·10^18 token-wei = 2.0 tokens) the
code scales `reserve0` by the TARGET token's decimals instead of its
own: it yields 1/(2·10^24) where scaling each reserve by its own
token's decimals yields 1/2.  The third conjunct is that correctly
bound value; the fourth is the divergence. -/
theorem claim_c9_sync_spot_price_decimals :
    syncSpotPrice 100 200 18 18 true 1 = 1 / 2 ∧
    syncSpotPrice 1000000 2000000000000000000 18 6 true 1 =
      1 / 2000000000000000000000000 ∧
    wei_to_float 1000000 6 / wei_to_float 2000000000000000000 18 =
      1 / 2 ∧
    syncSpotPrice 1000000 2000000000000000000 18 6 true 1 ≠
      wei_to_float 1000000 6 / wei_to_float 2000000000000000000 18 := by
  refine ⟨?_, ?_, ?_, ?_⟩
  · norm_num [syncSpotPrice, calculate_v2_liquidity_usd_and_price,
      wei_to_float]
  · norm_num [syncSpotPrice, calculate_v2_liquidity_usd_and_price,
      wei_to_float]
  · norm_num [wei_to_float]
  · norm_num [syncSpotPrice, calculate_v2_liquidity_usd_and_price,
      wei_to_float]
